import Mathlib

/-!
Verification development for the RLonline data-logging backend (src/app.py).

The backend receives JSON payloads over HTTP and persists them into three
tables of a remote spreadsheet store (TrialData, BlockData, TaskData).
We shallowly embed the data-logging core: payload dictionaries, the fixed
column schemas, row projection (`append_row`'s row construction), server
timestamp injection, the task upsert (find by sub_id in column 1, then
overwrite-in-place or append), the bulk trial append, the combined
block-commit endpoint with its per-sub-operation error isolation, and the
column-index-to-letter mapping `col_to_letter`.

Remote-store faults (exceptions raised by the gspread calls) are modelled
by a fault schedule `Faults`: each remote write/search site may be told to
raise with a given message, mirroring the `try/except` structure of the
source.  The store itself is modelled as three lists of rows.
-/

/-- A JSON scalar payload value as the Python code sees it.  Payloads in
this system are strings, integers, booleans or null; floats are not
modelled. -/
inductive Value where
  | vStr : String → Value
  | vInt : Int → Value
  | vBool : Bool → Value
  | vNone : Value
deriving DecidableEq, Repr

/-- Python `str(v)` on a payload value. -/
def pyStr : Value → String
  | Value.vStr s => s
  | Value.vInt n => toString n
  | Value.vBool b => if b then "True" else "False"
  | Value.vNone => "None"

/-- Python truth-value test `not v` (we model `falsy v = true` iff `not v`
is `True` in Python). -/
def falsy : Value → Bool
  | Value.vStr s => s = ""
  | Value.vInt n => n = 0
  | Value.vBool b => !b
  | Value.vNone => true

/-- A JSON object / Python dict.  Only key lookup is ever observed by the
code, so we represent it as an association list with first-match lookup;
`dictSet`-style updates prepend, which preserves lookup semantics. -/
abbrev Dict := List (String × Value)

/-- A stored spreadsheet row. -/
abbrev Row := List Value

/-- Python `d.get(k)` / `k in d`: first-match lookup. -/
def dictGet : Dict → String → Option Value
  | [], _ => none
  | (k1, v) :: rest, k => if k1 = k then some v else dictGet rest k

/-- Column order of the TrialData sheet (TRIAL_COLUMNS in src/app.py). -/
def TRIAL_COLUMNS : List String :=
  ["sub_id", "timestamp", "block_number", "block_type", "trial_number",
   "trial_type", "valid_win", "valid_lose", "invalid_win", "invalid_lose",
   "sel_img1", "sel_img2", "sel_img3", "sel_img4", "left_image",
   "right_image", "left_right_flip", "reward_received", "trial_start",
   "trial_duration", "pair_type", "selected_side", "correct_side",
   "fixation_start_time", "fixation_end_time", "fixation_duration",
   "stimulus_start_time", "stimulus_end_time", "stimulus_duration",
   "feedback_start_time", "feedback_end_time", "feedback_duration"]

/-- Column order of the BlockData sheet (BLOCK_COLUMNS in src/app.py). -/
def BLOCK_COLUMNS : List String :=
  ["sub_id", "block_number", "block_type", "n_trials", "p_img1", "p_img2",
   "p_img3", "p_img4", "reward_count", "learner_status",
   "avg_reaction_duration", "std_reaction_duration",
   "avg_fixation_duration", "std_fixation_duration",
   "avg_stimulus_duration", "std_stimulus_duration",
   "avg_feedback_duration", "std_feedback_duration", "est_correct_reversed",
   "est_wrong_reversed", "est_correct_non_reversed",
   "est_wrong_non_reversed", "selected_left_count", "selected_right_count",
   "selected_left_percent"]

/-- Column order of the TaskData sheet (TASK_COLUMNS in src/app.py). -/
def TASK_COLUMNS : List String :=
  ["sub_id", "timestamp", "total_blocks", "learning_blocks",
   "reversal_blocks", "highest_reward_block", "learner_status",
   "total_rewards", "learning_rewards", "reversal_rewards",
   "fourth_learning_block_present", "avg_reaction_duration_learning",
   "std_reaction_duration_learning", "avg_reaction_duration_reversal",
   "std_reaction_duration_reversal", "avg_reaction_duration_total",
   "std_reaction_duration_total", "avg_fixation_duration_learning",
   "std_fixation_duration_learning", "avg_fixation_duration_reversal",
   "std_fixation_duration_reversal", "avg_fixation_duration_total",
   "std_fixation_duration_total", "avg_stimulus_duration_learning",
   "std_stimulus_duration_learning", "avg_stimulus_duration_reversal",
   "std_stimulus_duration_reversal", "avg_stimulus_duration_total",
   "std_stimulus_duration_total", "avg_feedback_duration_learning",
   "std_feedback_duration_learning", "avg_feedback_duration_reversal",
   "std_feedback_duration_reversal", "avg_feedback_duration_total",
   "std_feedback_duration_total", "selected_left_count",
   "selected_right_count", "selected_left_percent", "version",
   "isFinished"]

/-- Row construction of `append_row` / the bulk loops in src/app.py:
`row_vals = [data_dict.get(col, "") for col in columns_order]`. -/
def project (m : Dict) (schema : List String) : Row :=
  schema.map (fun c => (dictGet m c).getD (Value.vStr ""))

/-- The guard `"timestamp" in data and data["timestamp"]` (negation of the
injection condition `"timestamp" not in data or not data["timestamp"]`). -/
def hasUsableTimestamp (m : Dict) : Bool :=
  match dictGet m "timestamp" with
  | none => false
  | some v => !falsy v

/-- `if "timestamp" not in data or not data["timestamp"]:
data["timestamp"] = server_timestamp_iso()` from src/app.py.  Dict
assignment is modelled by prepending, which is what first-match lookup
observes. -/
def injectTimestamp (m : Dict) (now : String) : Dict :=
  if hasUsableTimestamp m then m else ("timestamp", Value.vStr now) :: m

/-- A UTC wall-clock instant at second precision, the data
`datetime.datetime.utcnow()` provides to `isoformat`. -/
structure UTCTime where
  year : Nat
  month : Nat
  day : Nat
  hour : Nat
  minute : Nat
  second : Nat
deriving DecidableEq, Repr

/-- The ranges `datetime.utcnow()` actually yields (year is 4 digits far
beyond this century). -/
def validUTC (t : UTCTime) : Prop :=
  t.year ≤ 9999 ∧ 1 ≤ t.month ∧ t.month ≤ 12 ∧ 1 ≤ t.day ∧ t.day ≤ 31 ∧
    t.hour ≤ 23 ∧ t.minute ≤ 59 ∧ t.second ≤ 59

instance (t : UTCTime) : Decidable (validUTC t) := by
  unfold validUTC
  infer_instance

/-- One decimal digit character: the digit of `n` in the given decimal
place as printed by CPython's zero-padded formatting. -/
def digitChar (n : Nat) : Char := Char.ofNat (48 + n % 10)

/-- Modelled from the source's library call
`datetime.datetime.utcnow().isoformat(timespec="seconds") + "Z"`
(src/app.py, server_timestamp_iso): CPython prints
`YYYY-MM-DDTHH:MM:SS` with zero padding for in-range field values, and the
code appends `"Z"`. -/
def server_timestamp_iso (t : UTCTime) : String :=
  String.mk
    [digitChar (t.year / 1000), digitChar (t.year / 100),
     digitChar (t.year / 10), digitChar t.year, '-',
     digitChar (t.month / 10), digitChar t.month, '-',
     digitChar (t.day / 10), digitChar t.day, 'T',
     digitChar (t.hour / 10), digitChar t.hour, ':',
     digitChar (t.minute / 10), digitChar t.minute, ':',
     digitChar (t.second / 10), digitChar t.second, 'Z']

/-- Checker for the ISO-8601 UTC shape `YYYY-MM-DDTHH:MM:SSZ` (second
precision, explicit Z suffix). -/
def isIsoUtc (s : String) : Bool :=
  match s.data with
  | [y1, y2, y3, y4, s1, mo1, mo2, s2, d1, d2, tsep, h1, h2, c1, mi1, mi2,
     c2, se1, se2, z] =>
      y1.isDigit && y2.isDigit && y3.isDigit && y4.isDigit && s1 == '-' &&
      mo1.isDigit && mo2.isDigit && s2 == '-' && d1.isDigit && d2.isDigit &&
      tsep == 'T' && h1.isDigit && h2.isDigit && c1 == ':' && mi1.isDigit &&
      mi2.isDigit && c2 == ':' && se1.isDigit && se2.isDigit && z == 'Z'
  | _ => false

/-- The loop body of `col_to_letter` (src/app.py):
`while col > 0: col, remainder = divmod(col - 1, 26);
result = chr(65 + remainder) + result`.
The first argument is fuel bounding the number of loop iterations; the
loop variable strictly decreases, so `col` iterations always suffice
(see `colLettersAux_fuel`). -/
def colLettersAux : Nat → Nat → List Char
  | _, 0 => []
  | 0, _ + 1 => []
  | fuel + 1, n + 1 => colLettersAux fuel (n / 26) ++ [Char.ofNat (65 + n % 26)]

/-- The character list produced by the `col_to_letter` loop. -/
def colLetters (col : Nat) : List Char := colLettersAux col col

/-- `col_to_letter` from src/app.py: 1-based column number to
spreadsheet column label. -/
def col_to_letter (col : Nat) : String := String.mk (colLetters col)

/-- Value of a single letter in bijective base-26 (A=1 .. Z=26). -/
def letterVal (c : Char) : Nat := c.toNat - 64

/-- Decode a spreadsheet column label back to its 1-based column number
(bijective base-26).  This is the reference meaning of a column label. -/
def decodeLetters (l : List Char) : Nat :=
  l.foldl (fun acc c => acc * 26 + letterVal c) 0

/-- Decode a column label given as a string. -/
def decodeCol (s : String) : Nat := decodeLetters s.data

lemma colLettersAux_fuel :
    ∀ (f1 : Nat) (n f2 : Nat), n ≤ f1 → n ≤ f2 →
      colLettersAux f1 n = colLettersAux f2 n := by
  intro f1
  induction f1 with
  | zero =>
    intro n f2 h1 _
    have hn : n = 0 := Nat.le_zero.mp h1
    subst hn
    cases f2 <;> rfl
  | succ f ih =>
    intro n f2 h1 h2
    cases n with
    | zero => cases f2 <;> rfl
    | succ m =>
      cases f2 with
      | zero => exact absurd h2 (by omega)
      | succ g =>
        show colLettersAux f (m / 26) ++ _ = colLettersAux g (m / 26) ++ _
        have hm1 : m / 26 ≤ f := le_trans (Nat.div_le_self m 26) (by omega)
        have hm2 : m / 26 ≤ g := le_trans (Nat.div_le_self m 26) (by omega)
        rw [ih (m / 26) g hm1 hm2]

lemma colLetters_succ (m : Nat) :
    colLetters (m + 1) = colLetters (m / 26) ++ [Char.ofNat (65 + m % 26)] := by
  show colLettersAux m (m / 26) ++ _ = colLettersAux (m / 26) (m / 26) ++ _
  rw [colLettersAux_fuel m (m / 26) (m / 26) (Nat.div_le_self m 26) le_rfl]

lemma letterVal_ofNat (k : Nat) (hk : k < 26) :
    letterVal (Char.ofNat (65 + k)) = k + 1 := by
  interval_cases k <;> decide

lemma letter_range (k : Nat) (hk : k < 26) :
    'A' ≤ Char.ofNat (65 + k) ∧ Char.ofNat (65 + k) ≤ 'Z' := by
  interval_cases k <;> exact ⟨by decide, by decide⟩

lemma decode_colLetters : ∀ n : Nat, decodeLetters (colLetters n) = n := by
  intro n
  induction n using Nat.strong_induction_on with
  | _ n ih =>
    match n with
    | 0 => rfl
    | m + 1 =>
      rw [colLetters_succ]
      unfold decodeLetters
      rw [List.foldl_append]
      have hrec : m / 26 < m + 1 := Nat.lt_succ_of_le (Nat.div_le_self m 26)
      have h2 := ih (m / 26) hrec
      unfold decodeLetters at h2
      rw [h2]
      show m / 26 * 26 + letterVal (Char.ofNat (65 + m % 26)) = m + 1
      rw [letterVal_ofNat (m % 26) (Nat.mod_lt m (by omega))]
      have := Nat.div_add_mod m 26
      omega

lemma colLetters_range :
    ∀ n : Nat, ∀ c ∈ colLetters n, 'A' ≤ c ∧ c ≤ 'Z' := by
  intro n
  induction n using Nat.strong_induction_on with
  | _ n ih =>
    match n with
    | 0 => intro c hc; exact absurd hc (by simp [colLetters, colLettersAux])
    | m + 1 =>
      intro c hc
      rw [colLetters_succ] at hc
      rcases List.mem_append.mp hc with h | h
      · exact ih (m / 26) (Nat.lt_succ_of_le (Nat.div_le_self m 26)) c h
      · have : c = Char.ofNat (65 + m % 26) := by simpa using h
        subst this
        exact letter_range (m % 26) (Nat.mod_lt m (by omega))

lemma colLetters_ne_nil (n : Nat) (h : 1 ≤ n) : colLetters n ≠ [] := by
  match n, h with
  | m + 1, _ =>
    rw [colLetters_succ]
    simp

/-- Claim C8: the column-index-to-letter mapping `col_to_letter` is a pure
function of the 1-based column number; it yields "Z" for column 26 and
"AA" for column 27, and for every column number n ≥ 1 it produces a
nonempty all-uppercase label that decodes (in bijective base-26, the
spreadsheet column-label meaning) back to n — in particular it is correct
beyond 26 columns, and maps the 40-column TaskData width to "AN". -/
theorem C8_col_to_letter (n : Nat) (h : 1 ≤ n) :
    col_to_letter 26 = "Z" ∧ col_to_letter 27 = "AA" ∧
    col_to_letter TASK_COLUMNS.length = "AN" ∧
    decodeCol (col_to_letter n) = n ∧ (col_to_letter n).data ≠ [] ∧
    (∀ c ∈ (col_to_letter n).data, 'A' ≤ c ∧ c ≤ 'Z') := by
  refine ⟨by decide, by decide, by decide, ?_, ?_, ?_⟩
  · exact decode_colLetters n
  · exact colLetters_ne_nil n h
  · exact colLetters_range n

/-- Witness for C8 at the concrete column number 29. -/
theorem C8_col_to_letter_witness :
    1 ≤ 29 ∧
    (col_to_letter 26 = "Z" ∧ col_to_letter 27 = "AA" ∧
     col_to_letter TASK_COLUMNS.length = "AN" ∧
     decodeCol (col_to_letter 29) = 29 ∧ (col_to_letter 29).data ≠ [] ∧
     (∀ c ∈ (col_to_letter 29).data, 'A' ≤ c ∧ c ≤ 'Z')) :=
  ⟨by decide, C8_col_to_letter 29 (by decide)⟩

/-- The three worksheets of the spreadsheet store. -/
structure Store where
  trialRows : List Row
  blockRows : List Row
  taskRows : List Row
deriving DecidableEq, Repr

/-- A fault schedule: each remote-call site of the data-logging code may
be told to raise an exception carrying the given message, mirroring the
`try/except` structure of src/app.py.  `ftrials` fires at the trials
bulk-append call, `fblock` at the block `append_row` call, `ffind` at the
`ws.find` call of the task upsert (a fault other than `CellNotFound`),
and `fwrite` at the task `ws.update`/`ws.append_row` call. -/
structure Faults where
  ftrials : Option String
  fblock : Option String
  ffind : Option String
  fwrite : Option String
deriving DecidableEq, Repr

/-- A healthy store: no remote call raises. -/
def noFaults : Faults := ⟨none, none, none, none⟩

/-- Only the task-upsert search raises (with the given message). -/
def findFault (msg : String) : Faults := ⟨none, none, some msg, none⟩

/-- A remote mutation performed against the store, as issued by the code
(used to count and identify write calls). -/
inductive WriteOp where
  | appendOne : String → Row → WriteOp
  | appendRows : String → List Row → WriteOp
  | updateRange : String → Nat → Row → WriteOp
deriving DecidableEq, Repr

/-- The JSON body (plus HTTP status code) returned by an endpoint. -/
structure Response where
  status : String
  message : Option String := none
  errors : List String := []
  rows_added : Option Nat := none
  trials_added : Option Nat := none
  httpCode : Nat := 200
deriving DecidableEq, Repr

/-- The string value gspread's `ws.find(str(sub_id), in_column=1)` sees in
a row's first cell (an absent cell reads as the empty string). -/
def rowKey (r : Row) : String := pyStr (r.headD (Value.vStr ""))

/-- Top-down scan of the first column, carrying the 1-based row number. -/
def findTaskRowAux : List Row → String → Nat → Option Nat
  | [], _, _ => none
  | r :: rs, key, i =>
      if rowKey r == key then some i else findTaskRowAux rs key (i + 1)

/-- `ws.find(str(sub_id), in_column=1)` of src/app.py: 1-based position of
the first row whose first cell equals the key, `none` when the search
reports not-found (`CellNotFound` / a `None` cell). -/
def findTaskRow (rows : List Row) (key : String) : Option Nat :=
  findTaskRowAux rows key 1

/-- `ws.update(f"A{r}:{end_col_letter}{r}", [row_vals])` of src/app.py:
overwrite the full schema width (columns 1..len(row_vals)) of the row at
the given 1-based position; cells beyond the addressed range keep their
values. -/
def overwriteRowAt : List Row → Nat → Row → List Row
  | [], _, _ => []
  | r :: rs, 0, _ => r :: rs
  | r :: rs, 1, nv => (nv ++ r.drop nv.length) :: rs
  | r :: rs, n + 2, nv => r :: overwriteRowAt rs (n + 1) nv

/-- `str(data.get("sub_id", ""))` of the task upsert, computed on the
payload after timestamp injection (injection never touches `sub_id`). -/
def taskKey (d : Dict) (now : String) : String :=
  pyStr ((dictGet (injectTimestamp d now) "sub_id").getD (Value.vStr ""))

/-- The task row `row_vals = [data.get(col, "") for col in TASK_COLUMNS]`,
built from the payload after timestamp injection. -/
def projectTask (d : Dict) (now : String) : Row :=
  project (injectTimestamp d now) TASK_COLUMNS

/-- The task upsert body shared (as duplicated source text) by `log_task`
and the task sub-operation of `log_block_complete`: inject the timestamp,
search column 1 of TaskData for `str(sub_id)` treating a store-reported
not-found as the append branch, then overwrite in place or append.  Any
fault at the search or write sites aborts with that fault's message. -/
def taskUpsert (d : Dict) (now : String) (f : Faults) (rows : List Row) :
    Except String (List Row × List WriteOp) :=
  match f.ffind with
  | some m => Except.error m
  | none =>
    match f.fwrite with
    | some m => Except.error m
    | none =>
      match findTaskRow rows (taskKey d now) with
      | some p =>
          Except.ok (overwriteRowAt rows p (projectTask d now),
            [WriteOp.updateRange "TaskData" p (projectTask d now)])
      | none =>
          Except.ok (rows ++ [projectTask d now],
            [WriteOp.appendOne "TaskData" (projectTask d now)])

/-- The `/log_task` endpoint of src/app.py. -/
def log_task (d : Dict) (now : String) (st : Store) (f : Faults) :
    Response × Store × List WriteOp :=
  match taskUpsert d now f st.taskRows with
  | Except.error m =>
      ({ status := "error", message := some m, httpCode := 500 }, st, [])
  | Except.ok pr =>
      ({ status := "ok" }, { st with taskRows := pr.1 }, pr.2)

/-- The `/log_trials_bulk` endpoint of src/app.py: build all projected
rows (injecting timestamps), issue a single `append_rows` call only when
the row list is non-empty, and report `rows_added = len(rows)`. -/
def log_trials_bulk (trials : List Dict) (now : String) (st : Store)
    (f : Faults) : Response × Store × List WriteOp :=
  let rows := trials.map (fun t => project (injectTimestamp t now) TRIAL_COLUMNS)
  if rows.isEmpty then
    ({ status := "ok", rows_added := some rows.length }, st, [])
  else
    match f.ftrials with
    | some m =>
        ({ status := "error", message := some m, httpCode := 500 }, st, [])
    | none =>
        ({ status := "ok", rows_added := some rows.length },
         { st with trialRows := st.trialRows ++ rows },
         [WriteOp.appendRows "TrialData" rows])

/-- The `/log_block_complete` endpoint of src/app.py: three sub-operations
run in sequence, each wrapped in its own `try/except` that appends a
tagged message to `errors`; a sub-operation whose payload section is
empty is skipped by its `if` guard.  The response is `partial_error`
with HTTP 500 when `errors` is non-empty, else `ok` with
`trials_added = len(trials)`. -/
def log_block_complete (trials : List Dict) (bd td : Dict) (now : String)
    (st : Store) (f : Faults) : Response × Store × List WriteOp :=
  let s1 : List String × Store × List WriteOp :=
    if trials.isEmpty then ([], st, [])
    else
      match f.ftrials with
      | some m => (["trials: " ++ m], st, [])
      | none =>
        let rows := trials.map (fun t => project (injectTimestamp t now) TRIAL_COLUMNS)
        if rows.isEmpty then ([], st, [])
        else ([], { st with trialRows := st.trialRows ++ rows },
              [WriteOp.appendRows "TrialData" rows])
  let s2 : List String × Store × List WriteOp :=
    if bd.isEmpty then ([], s1.2.1, [])
    else
      match f.fblock with
      | some m => (["block: " ++ m], s1.2.1, [])
      | none =>
        ([], { s1.2.1 with blockRows := s1.2.1.blockRows ++ [project bd BLOCK_COLUMNS] },
         [WriteOp.appendOne "BlockData" (project bd BLOCK_COLUMNS)])
  let s3 : List String × Store × List WriteOp :=
    if td.isEmpty then ([], s2.2.1, [])
    else
      match taskUpsert td now f s2.2.1.taskRows with
      | Except.error m => (["task: " ++ m], s2.2.1, [])
      | Except.ok pr => ([], { s2.2.1 with taskRows := pr.1 }, pr.2)
  let errors := s1.1 ++ s2.1 ++ s3.1
  let ops := s1.2.2 ++ s2.2.2 ++ s3.2.2
  if errors.isEmpty then
    ({ status := "ok", trials_added := some trials.length }, s3.2.1, ops)
  else
    ({ status := "partial_error", errors := errors, httpCode := 500 }, s3.2.1, ops)

lemma project_getD :
    ∀ (S : List String) (m : Dict) (i : Nat), i < S.length →
      (project m S).getD i (Value.vStr "")
        = (dictGet m (S.getD i "")).getD (Value.vStr "")
  | [], _, i, h => absurd h (by simp)
  | _ :: _, _, 0, _ => rfl
  | _ :: cs, m, i + 1, h => project_getD cs m i (by simpa using h)

lemma project_congr :
    ∀ (S : List String) (m mp : Dict),
      (∀ c ∈ S, dictGet m c = dictGet mp c) → project m S = project mp S := by
  intro S
  induction S with
  | nil => intro m mp _; rfl
  | cons c cs ih =>
    intro m mp h
    show (dictGet m c).getD (Value.vStr "") :: project m cs
        = (dictGet mp c).getD (Value.vStr "") :: project mp cs
    rw [h c (by simp), ih m mp (fun x hx => h x (by simp [hx]))]

/-- Claim C3: for every field mapping m and schema S, the projected row
has length |S|, in schema order; the value at index i is m[S[i]] when
S[i] is present in m with a value other than the empty value, and the
empty value "" when S[i] is absent or mapped to the empty value; and keys
of m outside S have no effect on the row (maps agreeing on S project
identically). -/
theorem C3_projection (m mp : Dict) (S : List String) :
    (project m S).length = S.length ∧
    (∀ i, i < S.length → ∀ v, dictGet m (S.getD i "") = some v →
      v ≠ Value.vStr "" → (project m S).getD i (Value.vStr "") = v) ∧
    (∀ i, i < S.length →
      (dictGet m (S.getD i "") = none ∨
        dictGet m (S.getD i "") = some (Value.vStr "")) →
      (project m S).getD i (Value.vStr "") = Value.vStr "") ∧
    ((∀ c ∈ S, dictGet m c = dictGet mp c) → project m S = project mp S) := by
  refine ⟨List.length_map _ _, ?_, ?_, project_congr S m mp⟩
  · intro i hi v hv _
    rw [project_getD S m i hi, hv]
    rfl
  · intro i hi hcase
    rw [project_getD S m i hi]
    rcases hcase with h | h <;> rw [h] <;> rfl

/-- Payload fixture: a trial/task payload with one schema field and one
junk field. -/
def mW : Dict := [("sub_id", Value.vStr "S1"), ("junk", Value.vInt 7)]

/-- Payload fixture: the same payload with the junk field removed. -/
def mpW : Dict := [("sub_id", Value.vStr "S1")]

/-- Witness for C3 on a concrete payload and the TrialData schema. -/
theorem C3_projection_witness :
    (0 < TRIAL_COLUMNS.length ∧
      dictGet mW (TRIAL_COLUMNS.getD 0 "") = some (Value.vStr "S1") ∧
      Value.vStr "S1" ≠ Value.vStr "" ∧
      (∀ c ∈ TRIAL_COLUMNS, dictGet mW c = dictGet mpW c)) ∧
    (project mW TRIAL_COLUMNS).getD 0 (Value.vStr "") = Value.vStr "S1" ∧
    project mW TRIAL_COLUMNS = project mpW TRIAL_COLUMNS := by
  have h := C3_projection mW mpW TRIAL_COLUMNS
  exact ⟨⟨by decide, by decide, by decide, by decide⟩,
    h.2.1 0 (by decide) (Value.vStr "S1") (by decide) (by decide),
    h.2.2.2 (by decide)⟩

lemma char_ofNat_digit (k : Nat) (hk : k < 10) :
    (Char.ofNat (48 + k)).isDigit = true := by
  interval_cases k <;> decide

lemma digitChar_isDigit (n : Nat) : (digitChar n).isDigit = true :=
  char_ofNat_digit (n % 10) (Nat.mod_lt _ (by omega))

lemma project_timestamp_trial (m : Dict) :
    (project m TRIAL_COLUMNS).getD 1 (Value.vStr "")
      = (dictGet m "timestamp").getD (Value.vStr "") := rfl

lemma project_timestamp_task (m : Dict) :
    (project m TASK_COLUMNS).getD 1 (Value.vStr "")
      = (dictGet m "timestamp").getD (Value.vStr "") := rfl

lemma isIsoUtc_server (t : UTCTime) :
    isIsoUtc (server_timestamp_iso t) = true := by
  simp [isIsoUtc, server_timestamp_iso, digitChar_isDigit]

/-- Claim C4: for every trial or task payload m, if m has no timestamp key
or its timestamp is empty (Python-falsy), the stored row's timestamp
column (index 1 of both schemas) holds the server-generated value, which
matches the ISO-8601 UTC shape YYYY-MM-DDTHH:MM:SSZ; if m's timestamp is
non-empty it passes through to the stored row unchanged (the payload is
not modified at all). -/
theorem C4_timestamp (m : Dict) (t : UTCTime) (_htv : validUTC t) :
    isIsoUtc (server_timestamp_iso t) = true ∧
    ((dictGet m "timestamp" = none ∨
        (∃ v, dictGet m "timestamp" = some v ∧ falsy v = true)) →
      (project (injectTimestamp m (server_timestamp_iso t)) TRIAL_COLUMNS).getD 1
          (Value.vStr "") = Value.vStr (server_timestamp_iso t) ∧
      (project (injectTimestamp m (server_timestamp_iso t)) TASK_COLUMNS).getD 1
          (Value.vStr "") = Value.vStr (server_timestamp_iso t)) ∧
    (∀ v, dictGet m "timestamp" = some v → falsy v = false →
      injectTimestamp m (server_timestamp_iso t) = m ∧
      (project m TRIAL_COLUMNS).getD 1 (Value.vStr "") = v ∧
      (project m TASK_COLUMNS).getD 1 (Value.vStr "") = v) := by
  refine ⟨isIsoUtc_server t, ?_, ?_⟩
  · intro h
    have hfalse : hasUsableTimestamp m = false := by
      unfold hasUsableTimestamp
      rcases h with h | ⟨v, h1, h2⟩
      · rw [h]
      · rw [h1]
        simp [h2]
    have hinj : injectTimestamp m (server_timestamp_iso t)
        = ("timestamp", Value.vStr (server_timestamp_iso t)) :: m := by
      unfold injectTimestamp
      simp [hfalse]
    rw [hinj, project_timestamp_trial, project_timestamp_task]
    constructor <;> simp [dictGet]
  · intro v h1 h2
    have htrue : hasUsableTimestamp m = true := by
      unfold hasUsableTimestamp
      rw [h1]
      simp [h2]
    have hinj : injectTimestamp m (server_timestamp_iso t) = m := by
      unfold injectTimestamp
      simp [htrue]
    refine ⟨hinj, ?_, ?_⟩
    · rw [project_timestamp_trial, h1]
      rfl
    · rw [project_timestamp_task, h1]
      rfl

/-- Time fixture for the timestamp witness. -/
def tW : UTCTime := ⟨2024, 5, 17, 3, 4, 5⟩

/-- Witness for C4: an empty payload gets the concrete server timestamp
injected in both schemas, and the generated string is well-formed. -/
theorem C4_timestamp_witness :
    validUTC tW ∧
    isIsoUtc (server_timestamp_iso tW) = true ∧
    (project (injectTimestamp [] (server_timestamp_iso tW)) TRIAL_COLUMNS).getD 1
        (Value.vStr "") = Value.vStr (server_timestamp_iso tW) ∧
    (project (injectTimestamp [] (server_timestamp_iso tW)) TASK_COLUMNS).getD 1
        (Value.vStr "") = Value.vStr (server_timestamp_iso tW) := by
  have h := C4_timestamp [] tW (by decide)
  exact ⟨by decide, h.1, (h.2.1 (Or.inl rfl)).1, (h.2.1 (Or.inl rfl)).2⟩

/-- Claim C5: a bulk-trial request with an empty trials list performs zero
remote write operations (no-op, not an error, whatever the fault
schedule) and reports rows_added = 0 with status ok; with N >= 1 trials
and a healthy store it makes exactly one batch write carrying all N
projected rows and reports rows_added = N. -/
theorem C5_bulk_append (trials : List Dict) (now : String) (st : Store)
    (f : Faults) :
    (trials = [] →
      (log_trials_bulk trials now st f).1.status = "ok" ∧
      (log_trials_bulk trials now st f).1.rows_added = some 0 ∧
      (log_trials_bulk trials now st f).2.1 = st ∧
      (log_trials_bulk trials now st f).2.2 = []) ∧
    (trials ≠ [] →
      (log_trials_bulk trials now st noFaults).1.status = "ok" ∧
      (log_trials_bulk trials now st noFaults).1.rows_added
        = some trials.length ∧
      (log_trials_bulk trials now st noFaults).2.2
        = [WriteOp.appendRows "TrialData"
            (trials.map (fun t => project (injectTimestamp t now) TRIAL_COLUMNS))] ∧
      (trials.map (fun t => project (injectTimestamp t now) TRIAL_COLUMNS)).length
        = trials.length ∧
      (log_trials_bulk trials now st noFaults).2.1.trialRows
        = st.trialRows
            ++ trials.map (fun t => project (injectTimestamp t now) TRIAL_COLUMNS)) := by
  constructor
  · intro h
    subst h
    exact ⟨rfl, rfl, rfl, rfl⟩
  · intro h
    cases trials with
    | nil => exact absurd rfl h
    | cons a l =>
      refine ⟨rfl, ?_, rfl, by simp, rfl⟩
      show some (((a :: l).map _).length) = _
      simp

/-- Store fixture: an empty store. -/
def stW : Store := ⟨[], [], []⟩

/-- Witness for C5 on the empty list and on a one-trial list. -/
theorem C5_bulk_append_witness :
    (([] : List Dict) = [] ∧
      (log_trials_bulk [] "T" stW noFaults).1.rows_added = some 0) ∧
    (([mpW] : List Dict) ≠ [] ∧
      (log_trials_bulk [mpW] "T" stW noFaults).1.rows_added = some 1 ∧
      (log_trials_bulk [mpW] "T" stW noFaults).2.2
        = [WriteOp.appendRows "TrialData"
            [project (injectTimestamp mpW "T") TRIAL_COLUMNS]]) :=
  ⟨⟨rfl, ((C5_bulk_append [] "T" stW noFaults).1 rfl).2.1⟩,
   ⟨by decide, ((C5_bulk_append [mpW] "T" stW noFaults).2 (by decide)).2.1,
    ((C5_bulk_append [mpW] "T" stW noFaults).2 (by decide)).2.2.1⟩⟩

lemma dictGet_inject_ne (m : Dict) (now : String) (k : String)
    (hk : k ≠ "timestamp") :
    dictGet (injectTimestamp m now) k = dictGet m k := by
  unfold injectTimestamp
  split
  · rfl
  · rw [show dictGet (("timestamp", Value.vStr now) :: m) k
        = if "timestamp" = k then some (Value.vStr now) else dictGet m k
        from rfl,
      if_neg (fun h => hk h.symm)]

lemma taskKey_int (d : Dict) (now : String) (n : Int)
    (h : dictGet d "sub_id" = some (Value.vInt n)) :
    taskKey d now = toString n := by
  unfold taskKey
  rw [dictGet_inject_ne d now "sub_id" (by decide), h]
  rfl

lemma taskKey_absent (d : Dict) (now : String)
    (h : dictGet d "sub_id" = none) : taskKey d now = "" := by
  unfold taskKey
  rw [dictGet_inject_ne d now "sub_id" (by decide), h]
  rfl

lemma taskUpsert_noFaults (d : Dict) (now : String) (rows : List Row) :
    taskUpsert d now noFaults rows
      = (match findTaskRow rows (taskKey d now) with
         | some p =>
             Except.ok (overwriteRowAt rows p (projectTask d now),
               [WriteOp.updateRange "TaskData" p (projectTask d now)])
         | none =>
             Except.ok (rows ++ [projectTask d now],
               [WriteOp.appendOne "TaskData" (projectTask d now)])) := rfl

lemma log_task_update (d : Dict) (now : String) (st : Store) (p : Nat)
    (h : findTaskRow st.taskRows (taskKey d now) = some p) :
    log_task d now st noFaults
      = ({ status := "ok" },
         { st with taskRows := overwriteRowAt st.taskRows p (projectTask d now) },
         [WriteOp.updateRange "TaskData" p (projectTask d now)]) := by
  unfold log_task
  rw [taskUpsert_noFaults, h]

lemma log_task_append (d : Dict) (now : String) (st : Store)
    (h : findTaskRow st.taskRows (taskKey d now) = none) :
    log_task d now st noFaults
      = ({ status := "ok" },
         { st with taskRows := st.taskRows ++ [projectTask d now] },
         [WriteOp.appendOne "TaskData" (projectTask d now)]) := by
  unfold log_task
  rw [taskUpsert_noFaults, h]

lemma log_task_noFaults_ok (d : Dict) (now : String) (st : Store) :
    (log_task d now st noFaults).1.status = "ok" := by
  cases h : findTaskRow st.taskRows (taskKey d now) with
  | none => rw [log_task_append d now st h]
  | some p => rw [log_task_update d now st p h]

/-- Claim C7: in the task-upsert locator, a store-reported not-found gets
the append branch (an expected, non-error outcome), while any other fault
raised during the search surfaces as an error response: the store is
untouched, no write is issued (in particular no silent append), and the
message propagates to the caller with a failure HTTP status. -/
theorem C7_locator_faults (d : Dict) (now msg : String) (st : Store) :
    ((log_task d now st (findFault msg)).1.status = "error" ∧
     (log_task d now st (findFault msg)).1.message = some msg ∧
     (log_task d now st (findFault msg)).1.httpCode = 500 ∧
     (log_task d now st (findFault msg)).2.1 = st ∧
     (log_task d now st (findFault msg)).2.2 = []) ∧
    (findTaskRow st.taskRows (taskKey d now) = none →
      (log_task d now st noFaults).1.status = "ok" ∧
      (log_task d now st noFaults).1.httpCode = 200 ∧
      (log_task d now st noFaults).2.1.taskRows
        = st.taskRows ++ [projectTask d now] ∧
      (log_task d now st noFaults).2.2
        = [WriteOp.appendOne "TaskData" (projectTask d now)]) := by
  constructor
  · exact ⟨rfl, rfl, rfl, rfl, rfl⟩
  · intro h
    rw [log_task_append d now st h]
    exact ⟨rfl, rfl, rfl, rfl⟩

/-- Witness for C7: on an empty TaskData table the search reports
not-found and the upsert appends. -/
theorem C7_locator_faults_witness :
    findTaskRow stW.taskRows (taskKey mpW "T") = none ∧
    ((log_task mpW "T" stW (findFault "down")).1.status = "error" ∧
     (log_task mpW "T" stW noFaults).1.status = "ok" ∧
     (log_task mpW "T" stW noFaults).2.1.taskRows
       = stW.taskRows ++ [projectTask mpW "T"]) :=
  ⟨rfl,
   (C7_locator_faults mpW "T" "down" stW).1.1,
   ((C7_locator_faults mpW "T" "down" stW).2 rfl).1,
   ((C7_locator_faults mpW "T" "down" stW).2 rfl).2.2.1⟩

/-- Claim C10: the key used to search column 1 of TaskData is
`str(payload["sub_id"])`, defaulting to the empty string when `sub_id` is
absent: an integer subject id is matched by its textual representation,
and a payload with no `sub_id` searches for (and may match) the
empty-string key rather than being rejected. -/
theorem C10_subid_key (d : Dict) (now : String) (st : Store) :
    (∀ n : Int, dictGet d "sub_id" = some (Value.vInt n) →
      (log_task d now st noFaults).1.status = "ok" ∧
      (∀ p, findTaskRow st.taskRows (toString n) = some p →
        (log_task d now st noFaults).2.2
          = [WriteOp.updateRange "TaskData" p (projectTask d now)]) ∧
      (findTaskRow st.taskRows (toString n) = none →
        (log_task d now st noFaults).2.2
          = [WriteOp.appendOne "TaskData" (projectTask d now)])) ∧
    (dictGet d "sub_id" = none →
      (log_task d now st noFaults).1.status = "ok" ∧
      (∀ p, findTaskRow st.taskRows "" = some p →
        (log_task d now st noFaults).2.2
          = [WriteOp.updateRange "TaskData" p (projectTask d now)]) ∧
      (findTaskRow st.taskRows "" = none →
        (log_task d now st noFaults).2.2
          = [WriteOp.appendOne "TaskData" (projectTask d now)])) := by
  constructor
  · intro n hn
    refine ⟨log_task_noFaults_ok d now st, ?_, ?_⟩
    · intro p hp
      rw [log_task_update d now st p (by rw [taskKey_int d now n hn]; exact hp)]
    · intro hp
      rw [log_task_append d now st (by rw [taskKey_int d now n hn]; exact hp)]
  · intro hn
    refine ⟨log_task_noFaults_ok d now st, ?_, ?_⟩
    · intro p hp
      rw [log_task_update d now st p (by rw [taskKey_absent d now hn]; exact hp)]
    · intro hp
      rw [log_task_append d now st (by rw [taskKey_absent d now hn]; exact hp)]

/-- Payload fixture: an integer subject id. -/
def dNum : Dict := [("sub_id", Value.vInt 7)]

/-- Store fixture: a TaskData table whose single row holds the text "7"
in column 1. -/
def stNum : Store := ⟨[], [], [[Value.vStr "7", Value.vStr "x"]]⟩

/-- Witness for C10: the integer subject id 7 matches the stored text "7"
and triggers the overwrite branch at row 1. -/
theorem C10_subid_key_witness :
    dictGet dNum "sub_id" = some (Value.vInt 7) ∧
    findTaskRow stNum.taskRows (toString (7 : Int)) = some 1 ∧
    (log_task dNum "T" stNum noFaults).2.2
      = [WriteOp.updateRange "TaskData" 1 (projectTask dNum "T")] :=
  ⟨rfl, by decide,
   ((C10_subid_key dNum "T" stNum).1 7 rfl).2.1 1 (by decide)⟩

lemma map_isEmpty (g : Dict → Row) (l : List Dict) :
    (l.map g).isEmpty = l.isEmpty := by
  cases l <;> rfl

/-- Specification of the trials sub-operation's error contribution: it
depends only on the trials section and the trials-site fault. -/
def specTrialsErrs (trials : List Dict) (ft : Option String) : List String :=
  if trials.isEmpty then []
  else match ft with
       | some m => ["trials: " ++ m]
       | none => []

/-- Specification of the trials sub-operation's effect on TrialData. -/
def specTrialsRows (trials : List Dict) (now : String) (ft : Option String)
    (tr : List Row) : List Row :=
  if trials.isEmpty then tr
  else match ft with
       | some _ => tr
       | none =>
           tr ++ trials.map (fun t => project (injectTimestamp t now) TRIAL_COLUMNS)

/-- Specification of the trials sub-operation's write calls. -/
def specTrialsOps (trials : List Dict) (now : String) (ft : Option String) :
    List WriteOp :=
  if trials.isEmpty then []
  else match ft with
       | some _ => []
       | none =>
           [WriteOp.appendRows "TrialData"
             (trials.map (fun t => project (injectTimestamp t now) TRIAL_COLUMNS))]

/-- Specification of the block sub-operation's error contribution. -/
def specBlockErrs (bd : Dict) (fb : Option String) : List String :=
  if bd.isEmpty then []
  else match fb with
       | some m => ["block: " ++ m]
       | none => []

/-- Specification of the block sub-operation's effect on BlockData. -/
def specBlockRows (bd : Dict) (fb : Option String) (br : List Row) :
    List Row :=
  if bd.isEmpty then br
  else match fb with
       | some _ => br
       | none => br ++ [project bd BLOCK_COLUMNS]

/-- Specification of the block sub-operation's write calls. -/
def specBlockOps (bd : Dict) (fb : Option String) : List WriteOp :=
  if bd.isEmpty then []
  else match fb with
       | some _ => []
       | none => [WriteOp.appendOne "BlockData" (project bd BLOCK_COLUMNS)]

/-- Specification of the task sub-operation's error contribution. -/
def specTaskErrs (td : Dict) (f : Faults) : List String :=
  if td.isEmpty then []
  else match f.ffind with
       | some m => ["task: " ++ m]
       | none =>
           match f.fwrite with
           | some m => ["task: " ++ m]
           | none => []

/-- Specification of the task sub-operation's effect on TaskData. -/
def specTaskRows (td : Dict) (now : String) (f : Faults) (ta : List Row) :
    List Row :=
  if td.isEmpty then ta
  else match f.ffind with
       | some _ => ta
       | none =>
           match f.fwrite with
           | some _ => ta
           | none =>
               match findTaskRow ta (taskKey td now) with
               | some p => overwriteRowAt ta p (projectTask td now)
               | none => ta ++ [projectTask td now]

/-- Specification of the task sub-operation's write calls. -/
def specTaskOps (td : Dict) (now : String) (f : Faults) (ta : List Row) :
    List WriteOp :=
  if td.isEmpty then []
  else match f.ffind with
       | some _ => []
       | none =>
           match f.fwrite with
           | some _ => []
           | none =>
               match findTaskRow ta (taskKey td now) with
               | some p => [WriteOp.updateRange "TaskData" p (projectTask td now)]
               | none => [WriteOp.appendOne "TaskData" (projectTask td now)]

lemma log_block_complete_spec (trials : List Dict) (bd td : Dict)
    (now : String) (st : Store) (f : Faults) :
    log_block_complete trials bd td now st f
      = ((if (specTrialsErrs trials f.ftrials ++ specBlockErrs bd f.fblock
                ++ specTaskErrs td f).isEmpty
          then { status := "ok", trials_added := some trials.length }
          else { status := "partial_error",
                 errors := specTrialsErrs trials f.ftrials
                   ++ specBlockErrs bd f.fblock ++ specTaskErrs td f,
                 httpCode := 500 }),
         ⟨specTrialsRows trials now f.ftrials st.trialRows,
          specBlockRows bd f.fblock st.blockRows,
          specTaskRows td now f st.taskRows⟩,
         specTrialsOps trials now f.ftrials ++ specBlockOps bd f.fblock
           ++ specTaskOps td now f st.taskRows) := by
  rcases st with ⟨str, sbr, sta⟩
  rcases f with ⟨ft, fb, ff, fw⟩
  by_cases h1 : trials.isEmpty <;> by_cases h2 : bd.isEmpty <;>
    by_cases h3 : td.isEmpty <;>
    cases ft <;> cases fb <;> cases ff <;> cases fw <;>
      simp [log_block_complete, taskUpsert, map_isEmpty, specTrialsErrs,
        specTrialsRows, specTrialsOps, specBlockErrs, specBlockRows,
        specBlockOps, specTaskErrs, specTaskRows, specTaskOps, h1, h2, h3] <;>
    cases hfind : findTaskRow sta (taskKey td now) <;> simp [hfind]

/-- Claim C2: the three block-commit sub-operations are independent: each
sub-operation's error contribution, table effect and write calls are a
function of its own payload section and its own fault sites only
(failures are caught, tagged "trials"/"block"/"task", and do not stop the
remaining sub-operations); when at least one failed the response is
partial_error with the tagged error list and HTTP 500, and when all
succeed it is ok with trials_added equal to the number of submitted
trials. -/
theorem C2_subops_independent (trials : List Dict) (bd td : Dict)
    (now : String) (st : Store) (f : Faults) :
    (log_block_complete trials bd td now st f).1.errors
      = specTrialsErrs trials f.ftrials ++ specBlockErrs bd f.fblock
        ++ specTaskErrs td f ∧
    (log_block_complete trials bd td now st f).2.1.trialRows
      = specTrialsRows trials now f.ftrials st.trialRows ∧
    (log_block_complete trials bd td now st f).2.1.blockRows
      = specBlockRows bd f.fblock st.blockRows ∧
    (log_block_complete trials bd td now st f).2.1.taskRows
      = specTaskRows td now f st.taskRows ∧
    (log_block_complete trials bd td now st f).2.2
      = specTrialsOps trials now f.ftrials ++ specBlockOps bd f.fblock
        ++ specTaskOps td now f st.taskRows ∧
    ((log_block_complete trials bd td now st f).1.errors = [] →
      (log_block_complete trials bd td now st f).1.status = "ok" ∧
      (log_block_complete trials bd td now st f).1.trials_added
        = some trials.length ∧
      (log_block_complete trials bd td now st f).1.httpCode = 200) ∧
    ((log_block_complete trials bd td now st f).1.errors ≠ [] →
      (log_block_complete trials bd td now st f).1.status = "partial_error" ∧
      (log_block_complete trials bd td now st f).1.httpCode = 500) := by
  rw [log_block_complete_spec]
  by_cases hE : (specTrialsErrs trials f.ftrials ++ specBlockErrs bd f.fblock
      ++ specTaskErrs td f).isEmpty
  · have hEnil : specTrialsErrs trials f.ftrials ++ specBlockErrs bd f.fblock
        ++ specTaskErrs td f = [] := List.isEmpty_iff.mp hE
    rw [if_pos hE]
    simp [hEnil]
  · have hEne : specTrialsErrs trials f.ftrials ++ specBlockErrs bd f.fblock
        ++ specTaskErrs td f ≠ [] := by
      intro hc
      exact hE (by simp [hc])
    rw [if_neg hE]
    simp [hEne]
    intro ha hb hc
    exact hEne (by simp [ha, hb, hc])

/-- Faults fixture: the block write site raises, everything else is
healthy. -/
def blockFaultW : Faults := ⟨none, some "quota", none, none⟩

/-- Witness for C2: with only the block sub-operation faulted, the trials
and task writes land, the single tagged error is reported, and the
response is partial_error with HTTP 500. -/
theorem C2_subops_independent_witness :
    ((log_block_complete [mpW] mpW mpW "T" stW blockFaultW).1.errors ≠ []) ∧
    ((log_block_complete [mpW] mpW mpW "T" stW blockFaultW).1.errors
        = ["block: quota"] ∧
      (log_block_complete [mpW] mpW mpW "T" stW blockFaultW).2.1.trialRows
        = stW.trialRows ++ [project (injectTimestamp mpW "T") TRIAL_COLUMNS] ∧
      (log_block_complete [mpW] mpW mpW "T" stW blockFaultW).2.1.blockRows
        = stW.blockRows ∧
      (log_block_complete [mpW] mpW mpW "T" stW blockFaultW).2.1.taskRows
        = stW.taskRows ++ [projectTask mpW "T"] ∧
      (log_block_complete [mpW] mpW mpW "T" stW blockFaultW).1.status
        = "partial_error" ∧
      (log_block_complete [mpW] mpW mpW "T" stW blockFaultW).1.httpCode
        = 500) := by
  have h := C2_subops_independent [mpW] mpW mpW "T" stW blockFaultW
  refine ⟨by decide, by decide, ?_, ?_, ?_,
    (h.2.2.2.2.2.2 (by decide)).1, (h.2.2.2.2.2.2 (by decide)).2⟩
  · rw [h.2.1]
    decide
  · rw [h.2.2.1]
    decide
  · rw [h.2.2.2.1]
    decide

/-- Payload fixture: a minimal block/task section. -/
def dSec : Dict := [("sub_id", Value.vStr "S")]

/-- Faults fixture: every executed sub-operation raises. -/
def allFaultsW : Faults := ⟨some "e1", some "e2", some "e3", none⟩

/-- Counterexample to claim C6 as stated: in a block-commit where all
three executed sub-operations fail (none succeeds), the response status
is still "partial_error" — so partial_error is not surfaced only when
some sub-operations failed while others succeeded, and the status field
does not distinguish total failure from partial failure. -/
theorem C6_counterexample :
    (log_block_complete [([] : Dict)] dSec dSec "T" stW allFaultsW).1.status
      = "partial_error" ∧
    (log_block_complete [([] : Dict)] dSec dSec "T" stW allFaultsW).1.errors
      = ["trials: e1", "block: e2", "task: e3"] ∧
    (log_block_complete [([] : Dict)] dSec dSec "T" stW allFaultsW).2.1
      = stW ∧
    (log_block_complete [([] : Dict)] dSec dSec "T" stW allFaultsW).2.2
      = [] := by
  decide

/-- Claim C6 (amended): the partial_error status is surfaced exactly when
at least one executed sub-operation failed — including when every
executed sub-operation failed; total failure yields the same
partial_error status and is distinguishable from partial failure only
through the tagged error list, which identifies exactly the failed
sub-operations. -/
theorem C6_partial_error_iff (trials : List Dict) (bd td : Dict)
    (now : String) (st : Store) (f : Faults) :
    ((log_block_complete trials bd td now st f).1.status = "partial_error" ↔
      ¬ (specTrialsErrs trials f.ftrials ++ specBlockErrs bd f.fblock
          ++ specTaskErrs td f) = []) ∧
    ((log_block_complete trials bd td now st f).1.status = "ok" ↔
      (specTrialsErrs trials f.ftrials ++ specBlockErrs bd f.fblock
          ++ specTaskErrs td f) = []) ∧
    ((log_block_complete trials bd td now st f).1.status = "partial_error" →
      (log_block_complete trials bd td now st f).1.errors
        = specTrialsErrs trials f.ftrials ++ specBlockErrs bd f.fblock
          ++ specTaskErrs td f) := by
  rw [log_block_complete_spec]
  by_cases hE : (specTrialsErrs trials f.ftrials ++ specBlockErrs bd f.fblock
      ++ specTaskErrs td f).isEmpty
  · have hEnil : specTrialsErrs trials f.ftrials ++ specBlockErrs bd f.fblock
        ++ specTaskErrs td f = [] := List.isEmpty_iff.mp hE
    rw [if_pos hE]
    simp [hEnil]
  · have hEne : specTrialsErrs trials f.ftrials ++ specBlockErrs bd f.fblock
        ++ specTaskErrs td f ≠ [] := by
      intro hc
      exact hE (by simp [hc])
    rw [if_neg hE]
    simp [hEne]
    intro ha hb hc
    exact hEne (by simp [ha, hb, hc])

/-- Claim C9: a block-commit sub-operation whose payload section is empty
is skipped entirely — its table is untouched and no error is recorded for
it (the surviving errors and write calls are exactly the other
sub-operations' contributions) — and a request with all three sections
empty performs no remote writes, records no errors, and returns ok. -/
theorem C9_skip_empty (trials : List Dict) (bd td : Dict) (now : String)
    (st : Store) (f : Faults) :
    (trials = [] →
      (log_block_complete trials bd td now st f).2.1.trialRows
        = st.trialRows ∧
      (log_block_complete trials bd td now st f).1.errors
        = specBlockErrs bd f.fblock ++ specTaskErrs td f ∧
      (log_block_complete trials bd td now st f).2.2
        = specBlockOps bd f.fblock ++ specTaskOps td now f st.taskRows) ∧
    (bd = [] →
      (log_block_complete trials bd td now st f).2.1.blockRows
        = st.blockRows ∧
      (log_block_complete trials bd td now st f).1.errors
        = specTrialsErrs trials f.ftrials ++ specTaskErrs td f ∧
      (log_block_complete trials bd td now st f).2.2
        = specTrialsOps trials now f.ftrials
          ++ specTaskOps td now f st.taskRows) ∧
    (td = [] →
      (log_block_complete trials bd td now st f).2.1.taskRows
        = st.taskRows ∧
      (log_block_complete trials bd td now st f).1.errors
        = specTrialsErrs trials f.ftrials ++ specBlockErrs bd f.fblock ∧
      (log_block_complete trials bd td now st f).2.2
        = specTrialsOps trials now f.ftrials ++ specBlockOps bd f.fblock) ∧
    (trials = [] → bd = [] → td = [] →
      (log_block_complete trials bd td now st f).2.1 = st ∧
      (log_block_complete trials bd td now st f).2.2 = [] ∧
      (log_block_complete trials bd td now st f).1.errors = [] ∧
      (log_block_complete trials bd td now st f).1.status = "ok" ∧
      (log_block_complete trials bd td now st f).1.trials_added = some 0 ∧
      (log_block_complete trials bd td now st f).1.httpCode = 200) := by
  refine ⟨?_, ?_, ?_, ?_⟩
  · intro h
    subst h
    rw [log_block_complete_spec]
    refine ⟨by simp [specTrialsRows], ?_, by simp [specTrialsOps]⟩
    split <;> simp_all [List.isEmpty_iff, specTrialsErrs]
  · intro h
    subst h
    rw [log_block_complete_spec]
    refine ⟨by simp [specBlockRows], ?_, by simp [specBlockOps]⟩
    split <;> simp_all [List.isEmpty_iff, specBlockErrs]
  · intro h
    subst h
    rw [log_block_complete_spec]
    refine ⟨by simp [specTaskRows], ?_, by simp [specTaskOps]⟩
    split <;> simp_all [List.isEmpty_iff, specTaskErrs]
  · intro h1 h2 h3
    subst h1
    subst h2
    subst h3
    rw [log_block_complete_spec]
    exact ⟨rfl, rfl, rfl, rfl, rfl, rfl⟩

/-- Witness for C9: the all-empty block-commit request, under an
everywhere-faulty schedule, writes nothing, records no error and returns
ok. -/
theorem C9_skip_empty_witness :
    (([] : List Dict) = [] ∧ ([] : Dict) = []) ∧
    ((log_block_complete [] [] [] "T" stW allFaultsW).2.1 = stW ∧
      (log_block_complete [] [] [] "T" stW allFaultsW).2.2 = [] ∧
      (log_block_complete [] [] [] "T" stW allFaultsW).1.errors = [] ∧
      (log_block_complete [] [] [] "T" stW allFaultsW).1.status = "ok" ∧
      (log_block_complete [] [] [] "T" stW allFaultsW).1.trials_added
        = some 0 ∧
      (log_block_complete [] [] [] "T" stW allFaultsW).1.httpCode = 200) :=
  ⟨⟨rfl, rfl⟩, (C9_skip_empty [] [] [] "T" stW allFaultsW).2.2.2 rfl rfl rfl⟩

lemma findTaskRowAux_shift (rows : List Row) (key : String) :
    ∀ i, findTaskRowAux rows key (i + 1)
      = Option.map (fun p => p + 1) (findTaskRowAux rows key i) := by
  induction rows with
  | nil => intro i; rfl
  | cons r rs ih =>
    intro i
    by_cases h : (rowKey r == key) = true
    · simp [findTaskRowAux, h]
    · simp only [findTaskRowAux, h, if_false, Bool.false_eq_true, ite_false]
      exact ih (i + 1)

lemma findTaskRowAux_ge :
    ∀ (rows : List Row) (key : String) (i p : Nat),
      findTaskRowAux rows key i = some p → i ≤ p := by
  intro rows
  induction rows with
  | nil => intro key i p h; simp [findTaskRowAux] at h
  | cons r rs ih =>
    intro key i p h
    by_cases hr : (rowKey r == key) = true
    · simp [findTaskRowAux, hr] at h
      omega
    · simp only [findTaskRowAux, hr, Bool.false_eq_true, ite_false] at h
      have := ih key (i + 1) p h
      omega

lemma findTaskRowAux_none :
    ∀ (rows : List Row) (key : String),
      (∀ r ∈ rows, (rowKey r == key) = false) →
      ∀ i, findTaskRowAux rows key i = none := by
  intro rows
  induction rows with
  | nil => intro key _ i; rfl
  | cons r rs ih =>
    intro key h i
    have hr : (rowKey r == key) = false := h r (by simp)
    simp only [findTaskRowAux, hr, Bool.false_eq_true, ite_false]
    exact ih key (fun x hx => h x (by simp [hx])) (i + 1)

lemma upsert_existing (key : String) (nv : Row) (hne : nv ≠ [])
    (hkey : rowKey nv = key) :
    ∀ rows : List Row, rows.countP (fun r => rowKey r == key) = 1 →
      ∃ p, findTaskRow rows key = some p ∧
        (overwriteRowAt rows p nv).length = rows.length ∧
        (overwriteRowAt rows p nv).countP (fun r => rowKey r == key) = 1 ∧
        ∃ r, (overwriteRowAt rows p nv).filter (fun r => rowKey r == key) = [r] ∧
          r.take nv.length = nv := by
  obtain ⟨x, nvtl, rfl⟩ : ∃ x l, nv = x :: l := by
    cases nv with
    | nil => exact absurd rfl hne
    | cons x l => exact ⟨x, l, rfl⟩
  have hkey2 : ∀ t : Row, (rowKey ((x :: nvtl) ++ t) == key) = true := by
    intro t
    have : rowKey ((x :: nvtl) ++ t) = rowKey (x :: nvtl) := rfl
    rw [this, hkey]
    exact beq_self_eq_true key
  intro rows
  induction rows with
  | nil => intro h; simp at h
  | cons r rs ih =>
    intro hcount
    rw [List.countP_cons] at hcount
    by_cases hr : (rowKey r == key) = true
    · rw [hr] at hcount
      simp only [if_true] at hcount
      have hrs0 : rs.countP (fun q => rowKey q == key) = 0 := by omega
      have hfilnil : rs.filter (fun q => rowKey q == key) = [] := by
        rw [List.filter_eq_nil_iff]
        intro a ha
        exact List.countP_eq_zero.mp hrs0 a ha
      refine ⟨1, ?_, ?_, ?_, ?_⟩
      · show findTaskRowAux (r :: rs) key 1 = some 1
        simp [findTaskRowAux, hr]
      · show (((x :: nvtl) ++ r.drop (x :: nvtl).length) :: rs).length
            = (r :: rs).length
        simp
      · show (((x :: nvtl) ++ r.drop (x :: nvtl).length) :: rs).countP
            (fun q => rowKey q == key) = 1
        rw [List.countP_cons, hkey2 (r.drop (x :: nvtl).length)]
        simp [hrs0]
      · refine ⟨(x :: nvtl) ++ r.drop (x :: nvtl).length, ?_, List.take_left _ _⟩
        show (((x :: nvtl) ++ r.drop (x :: nvtl).length) :: rs).filter
            (fun q => rowKey q == key) = _
        simp only [List.filter_cons, hkey2 (r.drop (x :: nvtl).length),
          if_true, hfilnil]
    · rw [if_neg hr] at hcount
      simp only [Nat.add_zero] at hcount
      obtain ⟨p, hfind, hlen, hcnt, rr, hfil, htake⟩ := ih hcount
      have hge : 1 ≤ p := findTaskRowAux_ge rs key 1 p hfind
      obtain ⟨n, rfl⟩ : ∃ n, p = n + 1 := ⟨p - 1, by omega⟩
      refine ⟨n + 1 + 1, ?_, ?_, ?_, ?_⟩
      · show findTaskRowAux (r :: rs) key 1 = some (n + 1 + 1)
        have hs := findTaskRowAux_shift rs key 1
        have hfind1 : findTaskRowAux rs key 1 = some (n + 1) := hfind
        rw [hfind1] at hs
        simp only [Option.map_some'] at hs
        simp only [findTaskRowAux, hr, Bool.false_eq_true, ite_false]
        exact hs
      · show (r :: overwriteRowAt rs (n + 1) (x :: nvtl)).length = (r :: rs).length
        simp [hlen]
      · show (r :: overwriteRowAt rs (n + 1) (x :: nvtl)).countP
            (fun q => rowKey q == key) = 1
        rw [List.countP_cons]
        simp [hr, hcnt]
      · refine ⟨rr, ?_, htake⟩
        show (r :: overwriteRowAt rs (n + 1) (x :: nvtl)).filter
            (fun q => rowKey q == key) = [rr]
        simp only [List.filter_cons, hr, Bool.false_eq_true, ite_false, hfil]

/-- Claim C1: task upsert correctness (single-request setting).  When the
TaskData table holds exactly one row keyed by the request's subject id,
the upsert locates it and overwrites its full schema width in place
(issuing an update, not an append): afterwards the table has the same
number of rows, exactly one row for that subject id, and that row's
columns 1..N equal the newly projected payload.  When no row is keyed by
the subject id, exactly one new row — the projected payload — is
appended and the row count grows by one. -/
theorem C1_task_upsert (d : Dict) (now : String) (st : Store) :
    (st.taskRows.countP (fun r => rowKey r == taskKey d now) = 1 →
      (log_task d now st noFaults).1.status = "ok" ∧
      (log_task d now st noFaults).2.1.trialRows = st.trialRows ∧
      (log_task d now st noFaults).2.1.blockRows = st.blockRows ∧
      (log_task d now st noFaults).2.1.taskRows.length
        = st.taskRows.length ∧
      (log_task d now st noFaults).2.1.taskRows.countP
        (fun r => rowKey r == taskKey d now) = 1 ∧
      (∃ p, findTaskRow st.taskRows (taskKey d now) = some p ∧
        (log_task d now st noFaults).2.2
          = [WriteOp.updateRange "TaskData" p (projectTask d now)]) ∧
      (∃ r, (log_task d now st noFaults).2.1.taskRows.filter
          (fun q => rowKey q == taskKey d now) = [r] ∧
        r.take TASK_COLUMNS.length = projectTask d now)) ∧
    (st.taskRows.countP (fun r => rowKey r == taskKey d now) = 0 →
      (log_task d now st noFaults).1.status = "ok" ∧
      (log_task d now st noFaults).2.1.taskRows
        = st.taskRows ++ [projectTask d now] ∧
      (log_task d now st noFaults).2.1.taskRows.length
        = st.taskRows.length + 1 ∧
      (log_task d now st noFaults).2.1.taskRows.countP
        (fun r => rowKey r == taskKey d now) = 1 ∧
      (log_task d now st noFaults).2.2
        = [WriteOp.appendOne "TaskData" (projectTask d now)]) := by
  have hlen : (projectTask d now).length = TASK_COLUMNS.length :=
    List.length_map _ _
  have hlen40 : TASK_COLUMNS.length = 40 := rfl
  have hne : projectTask d now ≠ [] := by
    intro hnil
    rw [hnil] at hlen
    simp [hlen40] at hlen
  have hkey : rowKey (projectTask d now) = taskKey d now := rfl
  constructor
  · intro hcount
    obtain ⟨p, hfind, hlen2, hcnt, rr, hfil, htake⟩ :=
      upsert_existing (taskKey d now) (projectTask d now) hne hkey
        st.taskRows hcount
    rw [log_task_update d now st p hfind]
    refine ⟨rfl, rfl, rfl, hlen2, hcnt, ⟨p, hfind, rfl⟩,
      ⟨rr, hfil, ?_⟩⟩
    rw [← hlen]
    exact htake
  · intro hcount0
    have hall : ∀ r ∈ st.taskRows, (rowKey r == taskKey d now) = false := by
      intro r hr
      have := List.countP_eq_zero.mp hcount0 r hr
      simpa using this
    have hfindnone : findTaskRow st.taskRows (taskKey d now) = none :=
      findTaskRowAux_none st.taskRows (taskKey d now) hall 1
    rw [log_task_append d now st hfindnone]
    refine ⟨rfl, rfl, by simp, ?_, rfl⟩
    rw [List.countP_append, hcount0]
    have hbeq : (rowKey (projectTask d now) == taskKey d now) = true := by
      rw [hkey]
      exact beq_self_eq_true _
    simp [List.countP_cons, hbeq]

/-- Store fixture: a TaskData table with exactly one row for subject
"S". -/
def stUp : Store := ⟨[], [], [[Value.vStr "S", Value.vStr "old"]]⟩

/-- Witness for C1: both the overwrite branch (subject "S" already
present) and the append branch (empty table) at concrete inputs. -/
theorem C1_task_upsert_witness :
    (stUp.taskRows.countP (fun r => rowKey r == taskKey dSec "T") = 1 ∧
      ((log_task dSec "T" stUp noFaults).1.status = "ok" ∧
       (log_task dSec "T" stUp noFaults).2.1.trialRows = stUp.trialRows ∧
       (log_task dSec "T" stUp noFaults).2.1.blockRows = stUp.blockRows ∧
       (log_task dSec "T" stUp noFaults).2.1.taskRows.length
         = stUp.taskRows.length ∧
       (log_task dSec "T" stUp noFaults).2.1.taskRows.countP
         (fun r => rowKey r == taskKey dSec "T") = 1 ∧
       (∃ p, findTaskRow stUp.taskRows (taskKey dSec "T") = some p ∧
         (log_task dSec "T" stUp noFaults).2.2
           = [WriteOp.updateRange "TaskData" p (projectTask dSec "T")]) ∧
       (∃ r, (log_task dSec "T" stUp noFaults).2.1.taskRows.filter
           (fun q => rowKey q == taskKey dSec "T") = [r] ∧
         r.take TASK_COLUMNS.length = projectTask dSec "T"))) ∧
    (stW.taskRows.countP (fun r => rowKey r == taskKey dSec "T") = 0 ∧
      ((log_task dSec "T" stW noFaults).1.status = "ok" ∧
       (log_task dSec "T" stW noFaults).2.1.taskRows
         = stW.taskRows ++ [projectTask dSec "T"] ∧
       (log_task dSec "T" stW noFaults).2.1.taskRows.length
         = stW.taskRows.length + 1 ∧
       (log_task dSec "T" stW noFaults).2.1.taskRows.countP
         (fun r => rowKey r == taskKey dSec "T") = 1 ∧
       (log_task dSec "T" stW noFaults).2.2
         = [WriteOp.appendOne "TaskData" (projectTask dSec "T")])) :=
  ⟨⟨by decide, (C1_task_upsert dSec "T" stUp).1 (by decide)⟩,
   ⟨by decide, (C1_task_upsert dSec "T" stW).2 (by decide)⟩⟩

/-- Witness for the amended C6 at the all-faults fixture: every executed
sub-operation failed, the status is partial_error, and the error list is
the full tagged decomposition. -/
theorem C6_partial_error_iff_witness :
    (log_block_complete [([] : Dict)] dSec dSec "T" stW allFaultsW).1.status
      = "partial_error" ∧
    (log_block_complete [([] : Dict)] dSec dSec "T" stW allFaultsW).1.errors
      = specTrialsErrs [([] : Dict)] allFaultsW.ftrials
        ++ specBlockErrs dSec allFaultsW.fblock
        ++ specTaskErrs dSec allFaultsW :=
  ⟨by decide,
   (C6_partial_error_iff [([] : Dict)] dSec dSec "T" stW allFaultsW).2.2
     (by decide)⟩
